import Mathlib

/-!
Verification development for the kapital-api caching core.

Shallow embedding of:
* `app/utils/redis/circuit_breaker.py` (CircuitBreaker)
* `app/utils/redis/redis_manager.py` (RedisManager get/set/delete/clear_all)
* `app/utils/redis/cache_service.py` (CacheService get/set, generate_cache_key)
* `app/utils/redis/cache_decorator.py` (redis_cache wrapper, default key builder)
* `app/utils/cache_decorator.py` (legacy redis_cache wrapper key builder)
* `app/utils/yfinance_data_manager.py` and
  `app/utils/yahooquery/yahooquery_data_manager.py` (`_sanitize_for_json`)

Wall-clock time for the circuit breaker is modelled as an integer number of
seconds (`Int`); wall-clock time for the store is modelled as an integer
number of microseconds (`Nat`), the resolution of Python `datetime`.
-/

/-! ## Circuit breaker (`app/utils/redis/circuit_breaker.py`) -/

/-- `CircuitBreakerState` enum. -/
inductive BState where
  | closed
  | open_
  | halfOpen
deriving DecidableEq, Repr

/-- Constructor arguments of `CircuitBreaker.__init__`. -/
structure CBConfig where
  failureThreshold : Nat
  recoveryTimeout : Int
  halfOpenMaxCalls : Nat
deriving DecidableEq, Repr

/-- Mutable fields of a `CircuitBreaker` instance. -/
structure CBState where
  state : BState
  failureCount : Nat
  lastFailureTime : Int
  halfOpenCalls : Nat
deriving DecidableEq, Repr

/-- Field initialisation in `CircuitBreaker.__init__`:
CLOSED, failure_count = 0, last_failure_time = 0, half_open_calls = 0. -/
def cbInit : CBState := ⟨.closed, 0, 0, 0⟩

/-- `CircuitBreaker._on_success`. -/
def cbOnSuccess (st : CBState) : CBState :=
  if st.state = .halfOpen then { st with state := .closed, failureCount := 0 }
  else if st.state = .closed then { st with failureCount := 0 }
  else st

/-- `CircuitBreaker._on_failure`: records `last_failure_time = time.time()`
then transitions CLOSED (count up, maybe open) or HALF_OPEN (reopen). -/
def cbOnFailure (cfg : CBConfig) (st : CBState) (now : Int) : CBState :=
  let st1 := { st with lastFailureTime := now }
  if st1.state = .closed then
    let fc := st1.failureCount + 1
    if fc ≥ cfg.failureThreshold then { st1 with failureCount := fc, state := .open_ }
    else { st1 with failureCount := fc }
  else if st1.state = .halfOpen then { st1 with state := .open_ }
  else st1

/-- Observable outcome of `CircuitBreaker.call`:
`ran success` means the wrapped function was invoked (its result or
exception propagates unchanged); `rejected r` means a `CircuitBreakerError`
carrying `time_remaining = r` was raised and the wrapped function was
never invoked. -/
inductive CBOutcome where
  | ran (success : Bool)
  | rejected (timeRemaining : Int)
deriving DecidableEq, Repr

/-- `CircuitBreaker.call`.  `funcSucceeds` abstracts whether the wrapped
function call raises. -/
def cbCall (cfg : CBConfig) (st : CBState) (now : Int) (funcSucceeds : Bool) :
    CBOutcome × CBState :=
  if st.state = .open_ ∧ ¬ (now > st.lastFailureTime + cfg.recoveryTimeout) then
    (.rejected (st.lastFailureTime + cfg.recoveryTimeout - now), st)
  else
    -- OPEN with the timeout expired enters half-open (half_open_calls = 0)
    let st1 := if st.state = .open_ then { st with state := .halfOpen, halfOpenCalls := 0 }
               else st
    if st1.state = .halfOpen ∧ st1.halfOpenCalls ≥ cfg.halfOpenMaxCalls then
      (.rejected (st1.lastFailureTime + cfg.recoveryTimeout - now), st1)
    else
      let st2 := if st1.state = .halfOpen then { st1 with halfOpenCalls := st1.halfOpenCalls + 1 }
                 else st1
      if funcSucceeds then (.ran true, cbOnSuccess st2)
      else (.ran false, cbOnFailure cfg st2 now)

/-! ## Python value model

Python values flowing through the cache layer.  Tuples are represented as
lists (every embedded code path treats `list` and `tuple` identically).
Finite floats are abstracted by an integer tag; only NaN/Infinity are
inspected by the embedded code.  `vOpaque s` stands for a non-primitive
object without `__dict__` whose `str()` is `s`. -/

/-- Python float: NaN, signed infinity, or a finite value (abstracted). -/
inductive PyFloat where
  | nan
  | inf (neg : Bool)
  | fin (x : Int)
deriving DecidableEq, Repr

inductive Value where
  | vNone
  | vBool (b : Bool)
  | vInt (n : Int)
  | vFloat (f : PyFloat)
  | vStr (s : String)
  | vList (xs : List Value)
  | vDict (items : List (Value × Value))
  | vSeries (items : List (Value × Value))
  | vFrame (rows : List (List (String × Value)))
  | vDateTime (y mo d h mi s : Nat)
  | vObj (attrs : List (String × Value))
  | vOpaque (s : String)

/-- `x is None` test (used wherever the Python code compares with `None`). -/
def Value.isNone : Value → Bool
  | .vNone => true
  | _ => false

/-- Zero-padded two-digit rendering used by `datetime.isoformat`. -/
def pad2 (n : Nat) : String := if n < 10 then "0" ++ toString n else toString n

/-- Zero-padded four-digit year rendering used by `datetime.isoformat`. -/
def pad4 (n : Nat) : String :=
  if n < 10 then "000" ++ toString n
  else if n < 100 then "00" ++ toString n
  else if n < 1000 then "0" ++ toString n
  else toString n

/-- `datetime.isoformat()` for a microsecond-free datetime. -/
def isoFormat (y mo d h mi s : Nat) : String :=
  pad4 y ++ "-" ++ pad2 mo ++ "-" ++ pad2 d ++ "T" ++ pad2 h ++ ":" ++ pad2 mi ++ ":" ++ pad2 s

mutual

/-- Model of Python `str(obj)`.  Scalar renderings follow CPython; container
renderings follow CPython's `repr`-based formatting; pandas objects and
generic objects are given fixed deterministic renderings (their CPython text
depends on pandas internals / object identity, which no embedded code path
inspects). -/
def pyStr : Value → String
  | .vNone => "None"
  | .vBool b => if b then "True" else "False"
  | .vInt n => toString n
  | .vFloat .nan => "nan"
  | .vFloat (.inf neg) => if neg then "-inf" else "inf"
  | .vFloat (.fin x) => toString x ++ ".0"
  | .vStr s => s
  | .vList xs => "[" ++ String.intercalate ", " (pyReprList xs) ++ "]"
  | .vDict items => "\x7b" ++ String.intercalate ", " (pyReprItems items) ++ "\x7d"
  | .vSeries items => "Series(" ++ String.intercalate ", " (pyReprItems items) ++ ")"
  | .vFrame rows => "DataFrame(" ++ String.intercalate "; " (pyReprRows rows) ++ ")"
  | .vDateTime y mo d h mi s =>
      -- str(datetime) uses a space separator rather than "T"
      pad4 y ++ "-" ++ pad2 mo ++ "-" ++ pad2 d ++ " " ++ pad2 h ++ ":" ++ pad2 mi ++ ":" ++ pad2 s
  | .vObj attrs => "<object " ++ String.intercalate ", " (pyReprAttrs attrs) ++ ">"
  | .vOpaque s => s

/-- Model of Python `repr(obj)` (only its use inside container renderings
differs from `str`: strings gain quotes). -/
def pyRepr : Value → String
  | .vStr s => "'" ++ s ++ "'"
  | v => pyStr v

def pyReprList : List Value → List String
  | [] => []
  | v :: tl => pyRepr v :: pyReprList tl

def pyReprItems : List (Value × Value) → List String
  | [] => []
  | (k, v) :: tl => (pyRepr k ++ ": " ++ pyRepr v) :: pyReprItems tl

def pyReprAttrs : List (String × Value) → List String
  | [] => []
  | (k, v) :: tl => (k ++ "=" ++ pyRepr v) :: pyReprAttrs tl

def pyReprRows : List (List (String × Value)) → List String
  | [] => []
  | r :: tl => String.intercalate ", " (pyReprAttrs r) :: pyReprRows tl

end

/-- Python `bool(obj)` truthiness. -/
def pyTruthy : Value → Bool
  | .vNone => false
  | .vBool b => b
  | .vInt n => n ≠ 0
  | .vFloat .nan => true
  | .vFloat (.inf _) => true
  | .vFloat (.fin x) => x ≠ 0
  | .vStr s => s ≠ ""
  | .vList xs => ¬ xs.isEmpty
  | .vDict items => ¬ items.isEmpty
  | .vSeries _ => true   -- bool(Series) actually raises; never evaluated by embedded paths
  | .vFrame _ => true
  | .vDateTime _ _ _ _ _ _ => true
  | .vObj _ => true
  | .vOpaque _ => true

/-- Deterministic structural hash of a string (stands in for the
process-stable hashes the key builders use). -/
def strHash (s : String) : Nat :=
  s.toList.foldl (fun a c => a * 131 + c.toNat) 7

mutual

/-- Deterministic structural hash of a value.  Stands in for
`md5(json.dumps(v, sort_keys=True))` / Python `hash`: the only property the
embedded code relies on is that it is a function of the value. -/
def pyHashV : Value → Nat
  | .vNone => 1
  | .vBool b => if b then 3 else 2
  | .vInt n => 5 + n.natAbs * 2 + (if n < 0 then 1 else 0)
  | .vFloat .nan => 11
  | .vFloat (.inf neg) => if neg then 13 else 12
  | .vFloat (.fin x) => 17 + x.natAbs * 2 + (if x < 0 then 1 else 0)
  | .vStr s => 19 + strHash s
  | .vList xs => 23 + pyHashList xs
  | .vDict items => 29 + pyHashItems items
  | .vSeries items => 31 + pyHashItems items
  | .vFrame rows => 37 + pyHashRows rows
  | .vDateTime y mo d h mi s => 41 + ((((y * 13 + mo) * 32 + d) * 25 + h) * 61 + mi) * 61 + s
  | .vObj attrs => 43 + pyHashAttrs attrs
  | .vOpaque s => 47 + strHash s

def pyHashList : List Value → Nat
  | [] => 0
  | v :: tl => pyHashV v * 131 + pyHashList tl + 1

def pyHashItems : List (Value × Value) → Nat
  | [] => 0
  | (k, v) :: tl => (pyHashV k * 127 + pyHashV v) * 131 + pyHashItems tl + 1

def pyHashAttrs : List (String × Value) → Nat
  | [] => 0
  | (k, v) :: tl => (strHash k * 127 + pyHashV v) * 131 + pyHashAttrs tl + 1

def pyHashRows : List (List (String × Value)) → Nat
  | [] => 0
  | r :: tl => pyHashAttrs r * 131 + pyHashRows tl + 1

end

/-- Model of `hash(frozenset(v.items()))` in
`CacheService.generate_cache_key`: XOR-combined so it is insensitive to item
order, as the CPython frozenset hash is. -/
def pyHashFrozenItems (items : List (Value × Value)) : Nat :=
  items.foldl (fun a kv => a ^^^ (pyHashV kv.1 * 127 + pyHashV kv.2)) 0

/-- Model of `hashlib.md5(json.dumps(v, sort_keys=True).encode()).hexdigest()[:8]`
in the redis cache decorator's default key builder. -/
def md5Short (v : Value) : String :=
  (toString (pyHashV v)).take 8

/-! ## Key builders -/

/-- Python `name.startswith("_")`: the first character is an underscore. -/
def startsWithUnderscore (k : String) : Bool :=
  match k.data with
  | [] => false
  | c :: _ => c = '_'

/-- Python `sorted(d.items())` on a dict: with the (always-true for dicts)
distinctness of keys, tuple ordering reduces to ordering by key. -/
def sortParams (l : List (String × Value)) : List (String × Value) :=
  l.insertionSort (fun p q => p.1 ≤ q.1)

/-- Value formatting in `CacheService.generate_cache_key`
(`app/utils/redis/cache_service.py`): list/tuple joined by commas, dict
reduced to `str(hash(frozenset(v.items())))`, bool lowered, else `str(v)`. -/
def formatKeyValue : Value → String
  | .vList xs => String.intercalate "," (xs.map pyStr)
  | .vDict items => toString (pyHashFrozenItems items)
  | .vBool b => if b then "true" else "false"
  | v => pyStr v

/-- `CacheService.generate_cache_key`: prefix, then `k:v` parts for the
parameters sorted by name, skipping `_`-prefixed names and `None` values. -/
def generateCacheKey (pre : String) (params : List (String × Value)) : String :=
  let parts := (sortParams params).filterMap fun kv =>
    if startsWithUnderscore kv.1 then none
    else if kv.2.isNone then none
    else some (kv.1 ++ ":" ++ formatKeyValue kv.2)
  String.intercalate ":" (pre :: parts)

/-- `dict(zip(func_args.keys(), args))` followed by `.update(kwargs)`
in both decorators.  Python call semantics guarantee that positional and
keyword bindings never collide, so `update` is concatenation. -/
def buildArgValues (funcParams : List String) (args : List Value)
    (kwargs : List (String × Value)) : List (String × Value) :=
  (funcParams.zip args) ++ kwargs

/-- Parameter filter shared by both decorators: skip `self`/`kwargs`/`args`,
`_`-prefixed names, and (in the redis decorator) the bypass parameter. -/
def skipParam (bypassParam : Option String) (k : String) : Bool :=
  k = "self" ∨ k = "kwargs" ∨ k = "args" ∨ startsWithUnderscore k ∨ some k = bypassParam

/-- Default cache-key construction in `app/utils/redis/cache_decorator.py`
(`redis_cache` wrapper): `prefix : func_name : k:v ...` over the *sorted*
parameters, skipping internal / bypass / `None`-valued parameters, hashing
dict/list/tuple values. -/
def decoratorKey (keyPre funcName : String) (bypassParam : Option String)
    (argValues : List (String × Value)) : String :=
  let parts := (sortParams argValues).filterMap fun kv =>
    if skipParam bypassParam kv.1 then none
    else if kv.2.isNone then none
    else match kv.2 with
      | .vDict _ => some (kv.1 ++ ":" ++ md5Short kv.2)
      | .vList _ => some (kv.1 ++ ":" ++ md5Short kv.2)
      | v => some (kv.1 ++ ":" ++ pyStr v)
  String.intercalate ":" (keyPre :: funcName :: parts)

/-- Default cache-key construction in the legacy
`app/utils/cache_decorator.py` wrapper: same shape but iterating the
parameters in *insertion* order (no sorting) and with no complex-value
hashing (`f"{param_name}:{param_value}"` only). -/
def legacyKey (keyPre funcName : String)
    (argValues : List (String × Value)) : String :=
  let parts := argValues.filterMap fun kv =>
    if skipParam none kv.1 then none
    else if kv.2.isNone then none
    else some (kv.1 ++ ":" ++ pyStr kv.2)
  String.intercalate ":" (keyPre :: funcName :: parts)

/-! ## Store (`app/utils/redis/redis_manager.py`) -/

/-- Connectivity of the backing Redis for the duration of one operation:
`ok` (connected, operation succeeds), `down` (`is_connected()` false),
`errorDuring` (client raises a connection/timeout error mid-operation,
caught by the `except` clauses). -/
inductive ConnStatus where
  | ok
  | down
  | errorDuring
deriving DecidableEq, Repr

/-- A live Redis entry: the (orjson-serialized) value plus the TTL attached
at set-time (`none` = no expiration). -/
structure CacheEntry where
  value : Value
  expiry : Option Nat

/-- The keyspace: at most one live entry per key. -/
abbrev Store := List (String × CacheEntry)

def storeLookup (st : Store) (key : String) : Option CacheEntry :=
  (st.find? fun p => p.1 = key).map Prod.snd

def storeInsert (st : Store) (key : String) (e : CacheEntry) : Store :=
  (key, e) :: st.filter fun p => ¬ p.1 = key

def usPerSec : Nat := 1000000
def usPerDay : Nat := 86400000000

/-- The midnight-TTL computation in `RedisManager.set` at `datetime`'s
microsecond resolution: `tomorrow = utcnow() + timedelta(days=1)`;
`midnight = datetime(tomorrow.year, tomorrow.month, tomorrow.day)` (i.e.
`tomorrow` truncated to its UTC day); `ttl = int((midnight - now)
.total_seconds())` (truncation toward zero of a positive quantity = floor).
UTC days are uniformly 86400 s (no DST; leap seconds ignored). -/
def midnightTtl (nowUs : Nat) : Nat :=
  ((nowUs + usPerDay) / usPerDay * usPerDay - nowUs) / usPerSec

/-- `RedisManager.set`.  Returns the Python return value and the resulting
keyspace.  `invalidate_at_midnight` overwrites whatever `ttl` was passed;
`if ttl:` is Python truthiness, so both `None` and `0` take the
no-expiration `client.set` branch rather than `client.setex`. -/
def redisSet (conn : ConnStatus) (st : Store) (nowUs : Nat) (key : String)
    (value : Value) (ttl : Option Nat) (invalidateAtMidnight : Bool) : Bool × Store :=
  match conn with
  | .down => (false, st)         -- `if not self.is_connected(): return False`
  | .errorDuring => (false, st)  -- connection/timeout error caught, returns False
  | .ok =>
    let t := if invalidateAtMidnight then some (midnightTtl nowUs) else ttl
    match t with
    | some n =>
        if n ≠ 0 then (true, storeInsert st key ⟨value, some n⟩)
        else (true, storeInsert st key ⟨value, none⟩)
    | none => (true, storeInsert st key ⟨value, none⟩)

/-- `RedisManager.get`.  A missing key gives `data = None` (falsy) hence
`None`; a stored JSON `null` (the serialization of Python `None`) loads back
to `None`, which is also the function's return value; anything else is
returned deserialized. -/
def redisGet (conn : ConnStatus) (st : Store) (key : String) : Option Value :=
  match conn with
  | .down => none
  | .errorDuring => none
  | .ok =>
    match storeLookup st key with
    | some e => match e.value with
        | .vNone => none
        | v => some v
    | none => none

/-- `RedisManager.delete`. -/
def redisDelete (conn : ConnStatus) (st : Store) (key : String) : Bool × Store :=
  match conn with
  | .down => (false, st)
  | .errorDuring => (false, st)
  | .ok => ((storeLookup st key).isSome, st.filter fun p => ¬ p.1 = key)

/-- `RedisManager.clear_all`. -/
def redisClearAll (conn : ConnStatus) (st : Store) : Bool × Store :=
  match conn with
  | .down => (false, st)
  | .errorDuring => (false, st)
  | .ok => (true, [])

/-! ## CacheService (`app/utils/redis/cache_service.py`) -/

/-- `CacheStrategy` enum. -/
inductive CacheStrategy where
  | noCache
  | short
  | medium
  | long
  | daily
  | weekly
  | monthly
  | quarterly
deriving DecidableEq, Repr

/-- `CacheService.DEFAULT_TTL`. -/
def defaultTtl : CacheStrategy → Nat
  | .noCache => 0
  | .short => 60
  | .medium => 900
  | .long => 3600
  | .daily => 86400
  | .weekly => 604800
  | .monthly => 2592000
  | .quarterly => 7776000

/-- `CacheService.get_ttl` (`DEFAULT_TTL.get(strategy, 300)`; every strategy
is present in the table, so the 300 s default is dead). -/
def getTtl (s : CacheStrategy) : Nat := defaultTtl s

/-- The `CacheService.stats` counters. -/
structure CacheStats where
  hits : Nat
  misses : Nat
  errors : Nat
  sets : Nat
deriving DecidableEq, Repr

/-- `CacheService.get`: delegate to `redis_manager.get`; `value is not None`
is a hit. -/
def cacheServiceGet (conn : ConnStatus) (st : Store) (stats : CacheStats)
    (key : String) : Option Value × Bool × CacheStats :=
  match redisGet conn st key with
  | some v => (some v, true, { stats with hits := stats.hits + 1 })
  | none => (none, false, { stats with misses := stats.misses + 1 })

/-- `CacheService.set`: explicit `ttl` short-circuits strategy resolution;
otherwise DAILY delegates with `invalidate_at_midnight=True`, NO_CACHE
returns `True` without storing, and any other (or missing → MEDIUM)
strategy uses its `get_ttl` seconds.  The statistics update
(`sets` on success, `errors` on failure) follows the store call. -/
def cacheServiceSet (conn : ConnStatus) (st : Store) (stats : CacheStats)
    (nowUs : Nat) (key : String) (value : Value)
    (strategy : Option CacheStrategy) (ttl : Option Nat) :
    Bool × Store × CacheStats :=
  let run := fun (t : Option Nat) (inv : Bool) =>
    let r := redisSet conn st nowUs key value t inv
    if r.1 then (r.1, r.2, { stats with sets := stats.sets + 1 })
    else (r.1, r.2, { stats with errors := stats.errors + 1 })
  match ttl with
  | some t => run (some t) false
  | none =>
    let s := strategy.getD .medium
    if s = .daily then run none true
    else if s = .noCache then (true, st, stats)
    else run (some (getTtl s)) false

/-! ## Cache-aside wrapper (`app/utils/redis/cache_decorator.py`) -/

/-- The `ttl` argument of `redis_cache`: `None`, an `int`, a `str`, or a
`CacheStrategy`. -/
inductive TtlArg where
  | none_
  | int_ (n : Nat)
  | str_ (s : String)
  | strat (s : CacheStrategy)
deriving DecidableEq, Repr

/-- `CACHE_TTL_MAPPING` in `app/utils/redis/cache_decorator.py`. -/
def cacheTtlMapping (s : String) : Option Nat :=
  if s = "30 seconds" then some 30
  else if s = "1 minute" then some 60
  else if s = "5 minutes" then some 300
  else if s = "15 minutes" then some 900
  else if s = "30 minutes" then some (30 * 60)
  else if s = "1 hour" then some (60 * 60)
  else if s = "2 hours" then some (2 * 60 * 60)
  else if s = "6 hours" then some (6 * 60 * 60)
  else if s = "12 hours" then some (12 * 60 * 60)
  else if s = "1 day" then some (24 * 60 * 60)
  else if s = "2 days" then some (2 * 24 * 60 * 60)
  else if s = "1 week" then some (7 * 24 * 60 * 60)
  else if s = "2 weeks" then some (14 * 24 * 60 * 60)
  else if s = "1 month" then some (30 * 24 * 60 * 60)
  else if s = "3 months" then some (90 * 24 * 60 * 60)
  else none

/-- The `ttl_seconds` determination in the wrapper.  `if ttl:` is Python
truthiness (`None` and `0` are falsy; `CacheStrategy`, a `str` subclass with
non-empty values, is truthy and is caught by its dedicated branch because
its value is never a `CACHE_TTL_MAPPING` key). -/
def resolveTtlSeconds : TtlArg → Option Nat
  | .none_ => none
  | .int_ n => if n ≠ 0 then some n else none
  | .str_ s => if s ≠ "" then cacheTtlMapping s else none
  | .strat s => some (getTtl s)

/-- The bypass test in the wrapper: only an actual `bool`, or a string whose
lowercase form is one of `true/t/yes/y/1`, turns bypassing on. -/
def recognizedBypass : Value → Bool
  | .vBool b => b
  | .vStr s => ["true", "t", "yes", "y", "1"].contains s.toLower
  | _ => false

/-- Configuration closed over by one decorated producer
(`custom_key_generator` is `None`; `func` is identified by its name and
parameter list; the producer itself is abstracted by the value it returns). -/
structure WrapperConfig where
  ttl : TtlArg
  invalidateAtMidnight : Bool
  keyPre : String
  bypassCacheParam : Option String
  disableOnError : Bool
  cacheNullResponses : Bool
  funcName : String
  funcParams : List String

/-- What one call of the decorated function produced: its return value, or
the re-raised `CircuitBreakerError` when `disable_on_error` is off. -/
inductive WrapperOutcome where
  | value (v : Value)
  | cacheError (timeRemaining : Int)

/-- Observable effects of one call of the decorated function. -/
structure WrapperResult where
  outcome : WrapperOutcome
  store : Store
  cb : CBState
  producerCalls : Nat
  cacheGets : Nat
  cacheSets : Nat

/-- `kwargs.get(name)`. -/
def lookupKw (kwargs : List (String × Value)) (name : String) : Option Value :=
  (kwargs.find? fun p => p.1 = name).map Prod.snd

/-- The cache-miss tail of the wrapper: run the producer, skip storing when
the result is `None` and `cache_null_responses` is off, otherwise store
through the breaker-guarded `set_in_cache` (`redis_manager.set` swallows its
own errors, so the breaker records a success whenever it lets the call
through; a breaker rejection is caught by the surrounding `try`). -/
def wrapperMiss (cfg : WrapperConfig) (cbCfg : CBConfig) (conn : ConnStatus)
    (cb : CBState) (st : Store) (nowUs : Nat) (cacheKey : String)
    (producerResult : Value) (getsSoFar : Nat) : WrapperResult :=
  if producerResult.isNone ∧ ¬ cfg.cacheNullResponses then
    ⟨.value producerResult, st, cb, 1, getsSoFar, 0⟩
  else
    match cbCall cbCfg cb ((nowUs / usPerSec : Nat) : Int) true with
    | (.ran _, cb1) =>
        let r := redisSet conn st nowUs cacheKey producerResult
          (resolveTtlSeconds cfg.ttl) cfg.invalidateAtMidnight
        ⟨.value producerResult, r.2, cb1, 1, getsSoFar, 1⟩
    | (.rejected _, cb1) =>
        -- `except Exception` around `set_in_cache`: logged and swallowed
        ⟨.value producerResult, st, cb1, 1, getsSoFar, 0⟩

/-- One call of a producer decorated by `redis_cache`
(`app/utils/redis/cache_decorator.py`), with the producer abstracted by the
value `producerResult` it would return.  `producerCalls`, `cacheGets` and
`cacheSets` count producer invocations and executed `redis_manager.get`/
`redis_manager.set` operations. -/
def wrapperCall (cfg : WrapperConfig) (cbCfg : CBConfig) (conn : ConnStatus)
    (cb : CBState) (st : Store) (nowUs : Nat) (args : List Value)
    (kwargs : List (String × Value)) (producerResult : Value) : WrapperResult :=
  let shouldBypass :=
    match cfg.bypassCacheParam with
    | some p => match lookupKw kwargs p with
        | some v => recognizedBypass v
        | none => false
    | none => false
  if shouldBypass then
    -- early return: producer called directly, cache untouched
    ⟨.value producerResult, st, cb, 1, 0, 0⟩
  else
    let cacheKey := decoratorKey cfg.keyPre cfg.funcName cfg.bypassCacheParam
      (buildArgValues cfg.funcParams args kwargs)
    -- `get_from_cache` through the breaker (`redis_manager.get` catches its
    -- own errors, so when the breaker admits the call it records a success)
    match cbCall cbCfg cb ((nowUs / usPerSec : Nat) : Int) true with
    | (.ran _, cb1) =>
        match redisGet conn st cacheKey with
        | some v => ⟨.value v, st, cb1, 0, 1, 0⟩   -- cache hit: return it
        | none => wrapperMiss cfg cbCfg conn cb1 st nowUs cacheKey producerResult 1
    | (.rejected r, cb1) =>
        if cfg.disableOnError then
          -- breaker-open treated as a miss; continue without cache
          wrapperMiss cfg cbCfg conn cb1 st nowUs cacheKey producerResult 0
        else ⟨.cacheError r, st, cb1, 0, 0, 0⟩

/-! ## JSON sanitization

`_sanitize_for_json` exists twice: in `app/utils/yfinance_data_manager.py`
with plain unbounded recursion, and in
`app/utils/yahooquery/yahooquery_data_manager.py` with a `depth`/`max_depth`
cutoff.  Python reference cycles are not representable in the inductive
`Value`, so unbounded recursion shows up here as recursion depth that grows
without bound in the input. -/

mutual

/-- `_sanitize_for_json` from `app/utils/yfinance_data_manager.py`.
Branch order follows the source: dict, list/tuple, float (NaN → `None`,
±Infinity → `str`), `pd.isna` (catches `None`), datetime/Timestamp →
`isoformat()`, `Series.to_dict()`, `DataFrame.to_dict(orient="records")`
and `__dict__` recursions (inlined into their dict/list images, which is
what the nested Python call computes), string fallback, primitives as-is. -/
def sanitizeYf : Value → Value
  | .vDict items => .vDict (sanitizeYfItems items)
  | .vList xs => .vList (sanitizeYfList xs)
  | .vFloat .nan => .vNone
  | .vFloat (.inf neg) => .vStr (pyStr (.vFloat (.inf neg)))
  | .vFloat (.fin x) => .vFloat (.fin x)
  | .vNone => .vNone
  | .vDateTime y mo d h mi s => .vStr (isoFormat y mo d h mi s)
  | .vSeries items => .vDict (sanitizeYfItems items)
  | .vFrame rows => .vList (sanitizeYfRows rows)
  | .vObj attrs => .vDict (sanitizeYfAttrs attrs)
  | .vOpaque s => .vStr s
  | v => v

def sanitizeYfList : List Value → List Value
  | [] => []
  | v :: tl => sanitizeYf v :: sanitizeYfList tl

def sanitizeYfItems : List (Value × Value) → List (Value × Value)
  | [] => []
  | (k, v) :: tl => (.vStr (pyStr k), sanitizeYf v) :: sanitizeYfItems tl

def sanitizeYfAttrs : List (String × Value) → List (Value × Value)
  | [] => []
  | (k, v) :: tl => (.vStr k, sanitizeYf v) :: sanitizeYfAttrs tl

def sanitizeYfRows : List (List (String × Value)) → List Value
  | [] => []
  | r :: tl => .vDict (sanitizeYfAttrs r) :: sanitizeYfRows tl

end

/-- A dict row image of a DataFrame record, as built by
`to_dict(orient="records")`. -/
def rowToDict (r : List (String × Value)) : Value :=
  .vDict (r.map fun kv => (.vStr kv.1, kv.2))

mutual

/-- `_sanitize_for_json` from
`app/utils/yahooquery/yahooquery_data_manager.py`: identical dispatch, but
with `depth`/`max_depth` parameters; any call with `depth > max_depth`
returns `str(obj)` immediately, and every recursive call passes
`depth + 1`.  (The yahooquery-object branch behaves exactly like the
generic `__dict__` branch.) -/
def sanitizeYq (obj : Value) (depth maxDepth : Nat) : Value :=
  if _h : depth > maxDepth then .vStr (pyStr obj)
  else match obj with
    | .vDict items => .vDict (sanitizeYqItems items (depth + 1) maxDepth)
    | .vList xs => .vList (sanitizeYqList xs (depth + 1) maxDepth)
    | .vFloat .nan => .vNone
    | .vFloat (.inf neg) => .vStr (pyStr (.vFloat (.inf neg)))
    | .vFloat (.fin x) => .vFloat (.fin x)
    | .vNone => .vNone
    | .vDateTime y mo d h mi s => .vStr (isoFormat y mo d h mi s)
    | .vSeries items => sanitizeYq (.vDict items) (depth + 1) maxDepth
    | .vFrame rows => sanitizeYq (.vList (rows.map rowToDict)) (depth + 1) maxDepth
    | .vObj attrs => sanitizeYq (rowToDict attrs) (depth + 1) maxDepth
    | .vOpaque s => .vStr s
    | v => v
termination_by (maxDepth + 1 - depth, sizeOf obj)

def sanitizeYqList (xs : List Value) (depth maxDepth : Nat) : List Value :=
  match xs with
  | [] => []
  | v :: tl => sanitizeYq v depth maxDepth :: sanitizeYqList tl depth maxDepth
termination_by (maxDepth + 1 - depth, sizeOf xs)

def sanitizeYqItems (items : List (Value × Value)) (depth maxDepth : Nat) :
    List (Value × Value) :=
  match items with
  | [] => []
  | (k, v) :: tl =>
      (.vStr (pyStr k), sanitizeYq v depth maxDepth) :: sanitizeYqItems tl depth maxDepth
termination_by (maxDepth + 1 - depth, sizeOf items)

end

mutual

/-- Depth of the call tree of the yfinance `_sanitize_for_json` on a given
input: 1 for the current frame plus the deepest nested sanitization call
(the `to_dict`/`__dict__` branches spend one extra frame on the converted
container before descending). -/
def yfDepth : Value → Nat
  | .vDict items => 1 + yfDepthItems items
  | .vList xs => 1 + yfDepthList xs
  | .vSeries items => 1 + (1 + yfDepthItems items)
  | .vFrame rows => 1 + (1 + yfDepthRows rows)
  | .vObj attrs => 1 + (1 + yfDepthAttrs attrs)
  | _ => 1

def yfDepthList : List Value → Nat
  | [] => 0
  | v :: tl => max (yfDepth v) (yfDepthList tl)

def yfDepthItems : List (Value × Value) → Nat
  | [] => 0
  | (_, v) :: tl => max (yfDepth v) (yfDepthItems tl)

def yfDepthAttrs : List (String × Value) → Nat
  | [] => 0
  | (_, v) :: tl => max (yfDepth v) (yfDepthAttrs tl)

def yfDepthRows : List (List (String × Value)) → Nat
  | [] => 0
  | r :: tl => max (1 + yfDepthAttrs r) (yfDepthRows tl)

end

mutual

/-- Depth of the call tree of the yahooquery `_sanitize_for_json`:
as `yfDepth`, but a frame called with `depth > max_depth` returns
immediately and contributes a single frame. -/
def yqDepth (obj : Value) (depth maxDepth : Nat) : Nat :=
  if _h : depth > maxDepth then 1
  else match obj with
    | .vDict items => 1 + yqDepthItems items (depth + 1) maxDepth
    | .vList xs => 1 + yqDepthList xs (depth + 1) maxDepth
    | .vSeries items => 1 + yqDepth (.vDict items) (depth + 1) maxDepth
    | .vFrame rows => 1 + yqDepth (.vList (rows.map rowToDict)) (depth + 1) maxDepth
    | .vObj attrs => 1 + yqDepth (rowToDict attrs) (depth + 1) maxDepth
    | _ => 1
termination_by (maxDepth + 1 - depth, sizeOf obj)

def yqDepthList (xs : List Value) (depth maxDepth : Nat) : Nat :=
  match xs with
  | [] => 0
  | v :: tl => max (yqDepth v depth maxDepth) (yqDepthList tl depth maxDepth)
termination_by (maxDepth + 1 - depth, sizeOf xs)

def yqDepthItems (items : List (Value × Value)) (depth maxDepth : Nat) : Nat :=
  match items with
  | [] => 0
  | (_, v) :: tl => max (yqDepth v depth maxDepth) (yqDepthItems tl depth maxDepth)
termination_by (maxDepth + 1 - depth, sizeOf items)

end

/-- `n`-fold singleton list nesting around an integer, the canonical
pathologically nested input. -/
def nestList : Nat → Value
  | 0 => .vInt 0
  | n + 1 => .vList [nestList n]

/-- Modelled from the spec: "the next 00:00:00 UTC" strictly after an
instant given in whole seconds since the epoch (UTC days are 86400 s). -/
def nextUtcMidnightSec (nowSec : Nat) : Nat := (nowSec / 86400 + 1) * 86400

/-- Modelled from the spec: "the number of seconds from the set-time
instant to the next 00:00:00 UTC". -/
def specSecondsUntilNextMidnight (nowSec : Nat) : Nat :=
  nextUtcMidnightSec nowSec - nowSec

/-- A decorated producer used by the C7 counterexample: bypass parameter
`fresh`, no ttl, default prefix, one declared parameter. -/
def bypassCfg : WrapperConfig :=
  ⟨.none_, false, "kapital:", some "fresh", true, false, "f", ["fresh"]⟩

/-- A keyspace holding a cached entry under the key the wrapper derives for
`bypassCfg` with `kwargs = {fresh: 1}` (the bypass parameter is excluded
from the key). -/
def bypassStore : Store := [("kapital::f", ⟨.vStr "cached", none⟩)]

/-! ## Helper lemmas -/

lemma storeLookup_insert (st : Store) (key : String) (e : CacheEntry) :
    storeLookup (storeInsert st key e) key = some e := by
  simp [storeLookup, storeInsert]

lemma sortParams_eq_of_perm {l1 l2 : List (String × Value)} (hp : l1.Perm l2)
    (hnd : (l1.map Prod.fst).Nodup) : sortParams l1 = sortParams l2 := by
  haveI htot : IsTotal (String × Value) (fun p q => p.1 ≤ q.1) :=
    ⟨fun a b => le_total a.1 b.1⟩
  haveI htrans : IsTrans (String × Value) (fun p q => p.1 ≤ q.1) :=
    ⟨fun _ _ _ h1 h2 => le_trans h1 h2⟩
  haveI hanti : IsAntisymm (String × Value) (fun p q => p.1 < q.1) :=
    ⟨fun _ _ h1 h2 => ((lt_asymm h1) h2).elim⟩
  have hperm1 : (sortParams l1).Perm l1 := List.perm_insertionSort _ l1
  have hperm2 : (sortParams l2).Perm l2 := List.perm_insertionSort _ l2
  have hps : (sortParams l1).Perm (sortParams l2) := hperm1.trans (hp.trans hperm2.symm)
  have hnd1 : (sortParams l1).Pairwise (fun p q => p.1 ≠ q.1) := by
    have : ((sortParams l1).map Prod.fst).Nodup :=
      ((hperm1.map Prod.fst).nodup_iff).mpr hnd
    simpa [List.Nodup, List.pairwise_map] using this
  have hnd2 : (sortParams l2).Pairwise (fun p q => p.1 ≠ q.1) := by
    have hnd' : (l2.map Prod.fst).Nodup := ((hp.map Prod.fst).nodup_iff).mp hnd
    have : ((sortParams l2).map Prod.fst).Nodup :=
      ((hperm2.map Prod.fst).nodup_iff).mpr hnd'
    simpa [List.Nodup, List.pairwise_map] using this
  have hs1 : (sortParams l1).Pairwise (fun p q : String × Value => p.1 ≤ q.1) :=
    List.sorted_insertionSort _ l1
  have hs2 : (sortParams l2).Pairwise (fun p q : String × Value => p.1 ≤ q.1) :=
    List.sorted_insertionSort _ l2
  have hlt1 : (sortParams l1).Pairwise (fun p q : String × Value => p.1 < q.1) :=
    (hs1.and hnd1).imp fun h => lt_of_le_of_ne h.1 h.2
  have hlt2 : (sortParams l2).Pairwise (fun p q : String × Value => p.1 < q.1) :=
    (hs2.and hnd2).imp fun h => lt_of_le_of_ne h.1 h.2
  exact List.eq_of_perm_of_sorted hps hlt1 hlt2

lemma midnightTtl_eq_spec {nowUs : Nat} (hsec : nowUs % usPerSec = 0) :
    midnightTtl nowUs = specSecondsUntilNextMidnight (nowUs / usPerSec) := by
  obtain ⟨s, rfl⟩ : ∃ s, nowUs = 1000000 * s :=
    ⟨nowUs / 1000000, by unfold usPerSec at hsec; omega⟩
  unfold midnightTtl specSecondsUntilNextMidnight nextUtcMidnightSec usPerSec usPerDay
  omega

lemma midnightTtl_pos {nowUs : Nat} (hsec : nowUs % usPerSec = 0) :
    midnightTtl nowUs ≠ 0 := by
  obtain ⟨s, rfl⟩ : ∃ s, nowUs = 1000000 * s :=
    ⟨nowUs / 1000000, by unfold usPerSec at hsec; omega⟩
  unfold midnightTtl usPerSec usPerDay
  omega

lemma cbCall_init (cfg : CBConfig) (now : Int) :
    cbCall cfg cbInit now true = (.ran true, cbInit) := rfl

lemma redisGet_of_null {st : Store} {key : String} {e : Option Nat}
    (h : storeLookup st key = some ⟨.vNone, e⟩) :
    redisGet .ok st key = none := by
  simp [redisGet, h]

lemma wrapperMiss_producerCalls (cfg : WrapperConfig) (cbCfg : CBConfig)
    (conn : ConnStatus) (cb : CBState) (st : Store) (nowUs : Nat)
    (cacheKey : String) (pr : Value) (g : Nat) :
    (wrapperMiss cfg cbCfg conn cb st nowUs cacheKey pr g).producerCalls = 1 := by
  unfold wrapperMiss
  split
  · rfl
  · split <;> rfl

lemma sanitizeYq_cutoff (v : Value) (d m : Nat) (h : d > m) :
    sanitizeYq v d m = .vStr (pyStr v) := by
  unfold sanitizeYq
  rw [dif_pos h]

lemma yqDepth_cutoff (v : Value) (d m : Nat) (h : d > m) : yqDepth v d m = 1 := by
  unfold yqDepth
  rw [dif_pos h]

lemma yqDepth_bound_aux : ∀ f d m : Nat, m + 1 - d ≤ f →
    (∀ v, yqDepth v d m ≤ f + 1) ∧ (∀ xs, yqDepthList xs d m ≤ f + 1) ∧
    (∀ items, yqDepthItems items d m ≤ f + 1) := by
  intro f
  induction f with
  | zero =>
    intro d m h
    have hd : d > m := by omega
    have hv : ∀ v, yqDepth v d m ≤ 1 := fun v => le_of_eq (yqDepth_cutoff v d m hd)
    refine ⟨hv, ?_, ?_⟩
    · intro xs
      induction xs with
      | nil => simp [yqDepthList]
      | cons v tl ihtl => simp only [yqDepthList]; exact max_le (hv v) ihtl
    · intro items
      induction items with
      | nil => simp [yqDepthItems]
      | cons kv tl ihtl =>
        obtain ⟨k, v⟩ := kv
        simp only [yqDepthItems]
        exact max_le (hv v) ihtl
  | succ f ih =>
    intro d m h
    by_cases hd : d > m
    · have hv : ∀ v, yqDepth v d m ≤ f + 2 := fun v => by
        rw [yqDepth_cutoff v d m hd]; omega
      refine ⟨hv, ?_, ?_⟩
      · intro xs
        induction xs with
        | nil => simp [yqDepthList]
        | cons v tl ihtl => simp only [yqDepthList]; exact max_le (hv v) ihtl
      · intro items
        induction items with
        | nil => simp [yqDepthItems]
        | cons kv tl ihtl =>
          obtain ⟨k, v⟩ := kv
          simp only [yqDepthItems]
          exact max_le (hv v) ihtl
    · have hch := ih (d + 1) m (by omega)
      have hv : ∀ v, yqDepth v d m ≤ f + 2 := by
        intro v
        cases v with
        | vDict items =>
          unfold yqDepth; rw [dif_neg hd]
          show 1 + yqDepthItems items (d + 1) m ≤ f + 2
          have := hch.2.2 items; omega
        | vList xs =>
          unfold yqDepth; rw [dif_neg hd]
          show 1 + yqDepthList xs (d + 1) m ≤ f + 2
          have := hch.2.1 xs; omega
        | vSeries items =>
          unfold yqDepth; rw [dif_neg hd]
          show 1 + yqDepth (.vDict items) (d + 1) m ≤ f + 2
          have := hch.1 (.vDict items); omega
        | vFrame rows =>
          unfold yqDepth; rw [dif_neg hd]
          show 1 + yqDepth (.vList (rows.map rowToDict)) (d + 1) m ≤ f + 2
          have := hch.1 (.vList (rows.map rowToDict)); omega
        | vObj attrs =>
          unfold yqDepth; rw [dif_neg hd]
          show 1 + yqDepth (rowToDict attrs) (d + 1) m ≤ f + 2
          have := hch.1 (rowToDict attrs); omega
        | vNone => rw [show yqDepth .vNone d m = 1 by unfold yqDepth; rw [dif_neg hd]]; omega
        | vBool b => rw [show yqDepth (.vBool b) d m = 1 by unfold yqDepth; rw [dif_neg hd]]; omega
        | vInt n => rw [show yqDepth (.vInt n) d m = 1 by unfold yqDepth; rw [dif_neg hd]]; omega
        | vFloat x => rw [show yqDepth (.vFloat x) d m = 1 by unfold yqDepth; rw [dif_neg hd]]; omega
        | vStr s => rw [show yqDepth (.vStr s) d m = 1 by unfold yqDepth; rw [dif_neg hd]]; omega
        | vDateTime y mo dd hh mi ss =>
          rw [show yqDepth (.vDateTime y mo dd hh mi ss) d m = 1 by
            unfold yqDepth; rw [dif_neg hd]]
          omega
        | vOpaque s => rw [show yqDepth (.vOpaque s) d m = 1 by unfold yqDepth; rw [dif_neg hd]]; omega
      refine ⟨hv, ?_, ?_⟩
      · intro xs
        induction xs with
        | nil => simp [yqDepthList]
        | cons v tl ihtl => simp only [yqDepthList]; exact max_le (hv v) ihtl
      · intro items
        induction items with
        | nil => simp [yqDepthItems]
        | cons kv tl ihtl =>
          obtain ⟨k, v⟩ := kv
          simp only [yqDepthItems]
          exact max_le (hv v) ihtl

lemma yfDepth_nestList : ∀ n, yfDepth (nestList n) = n + 1 := by
  intro n
  induction n with
  | zero => simp [nestList, yfDepth]
  | succ n ihn =>
    show yfDepth (.vList [nestList n]) = n + 2
    unfold yfDepth yfDepthList
    rw [ihn]
    simp [yfDepthList]
    omega

lemma sanitizeYfRows_eq : ∀ rows, sanitizeYfRows rows =
    rows.map fun r => .vDict (sanitizeYfAttrs r) := by
  intro rows
  induction rows with
  | nil => simp [sanitizeYfRows]
  | cons r tl ihtl => simp [sanitizeYfRows, ihtl]

/-! ## Claims -/

/-- C1 (counterexample).  The claim says a call made once `recovery_timeout`
seconds have elapsed since `last_failure_time` moves the breaker from OPEN
to HALF_OPEN.  At exactly `recovery_timeout` elapsed (here 30 s, from
`last_failure_time = 100` to `now = 130`) the code's strict
`time.time() > last_failure_time + recovery_timeout` test fails: the call
is rejected and the breaker stays OPEN. -/
theorem cb_open_boundary_counterexample :
    (30 : Int) ≤ 130 - 100 ∧
    (cbCall ⟨5, 30, 1⟩ ⟨.open_, 5, 100, 0⟩ 130 true).2.state = .open_ ∧
    (cbCall ⟨5, 30, 1⟩ ⟨.open_, 5, 100, 0⟩ 130 true).1 = .rejected 0 := by
  decide

/-- C1 (amended).  The breaker starts CLOSED with `failure_count = 0` and
changes state only via: in CLOSED, a successful call resets the counter and
the `failure_threshold`-th consecutive failure moves it to OPEN; in OPEN,
calls made while *strictly more than* `recovery_timeout` seconds have not
yet elapsed since `last_failure_time` are rejected unchanged, and the first
call strictly after the timeout enters HALF_OPEN and runs as a trial; in
HALF_OPEN below the trial quota, a success closes the breaker with
`failure_count = 0` and a failure reopens it with `last_failure_time` set to
the failure time; at the quota the call is rejected with no state change. -/
theorem cb_state_machine (cfg : CBConfig) (st : CBState) (now : Int) :
    (cbInit.state = .closed ∧ cbInit.failureCount = 0) ∧
    (st.state = .closed →
      cbCall cfg st now true = (.ran true, { st with failureCount := 0 })) ∧
    (st.state = .closed → st.failureCount + 1 < cfg.failureThreshold →
      cbCall cfg st now false =
        (.ran false, { st with failureCount := st.failureCount + 1,
                               lastFailureTime := now })) ∧
    (st.state = .closed → st.failureCount + 1 ≥ cfg.failureThreshold →
      cbCall cfg st now false =
        (.ran false, { st with failureCount := st.failureCount + 1,
                               lastFailureTime := now, state := .open_ })) ∧
    (st.state = .open_ → now ≤ st.lastFailureTime + cfg.recoveryTimeout →
      ∀ f, cbCall cfg st now f =
        (.rejected (st.lastFailureTime + cfg.recoveryTimeout - now), st)) ∧
    (st.state = .open_ → now > st.lastFailureTime + cfg.recoveryTimeout →
      1 ≤ cfg.halfOpenMaxCalls →
      cbCall cfg st now true =
        (.ran true, { st with state := .closed, failureCount := 0, halfOpenCalls := 1 }) ∧
      cbCall cfg st now false =
        (.ran false, { st with state := .open_, halfOpenCalls := 1,
                               lastFailureTime := now })) ∧
    (st.state = .halfOpen → st.halfOpenCalls < cfg.halfOpenMaxCalls →
      cbCall cfg st now true =
        (.ran true, { st with state := .closed, failureCount := 0,
                              halfOpenCalls := st.halfOpenCalls + 1 }) ∧
      cbCall cfg st now false =
        (.ran false, { st with state := .open_,
                               halfOpenCalls := st.halfOpenCalls + 1,
                               lastFailureTime := now })) ∧
    (st.state = .halfOpen → st.halfOpenCalls ≥ cfg.halfOpenMaxCalls →
      ∀ f, cbCall cfg st now f =
        (.rejected (st.lastFailureTime + cfg.recoveryTimeout - now), st)) := by
  obtain ⟨s0, fc, lft, hoc⟩ := st
  refine ⟨⟨rfl, rfl⟩, ?_, ?_, ?_, ?_, ?_, ?_, ?_⟩
  · intro h
    simp only at h
    subst h
    rfl
  · intro h hlt
    simp only at h hlt
    subst h
    simp [cbCall, cbOnFailure]
    omega
  · intro h hge
    simp only at h hge
    subst h
    simp [cbCall, cbOnFailure]
    omega
  · intro h hle f
    simp only at h hle
    subst h
    simp [cbCall, cbOnFailure, cbOnSuccess]
    intro h2
    exact absurd h2 (by omega)
  · intro h hgt hmax
    simp only at h hgt
    subst h
    constructor <;>
    · simp [cbCall, cbOnFailure, cbOnSuccess]
      rw [if_neg (by omega), if_neg (by omega)]
  · intro h hlt
    simp only at h hlt
    subst h
    constructor <;>
    · simp [cbCall, cbOnFailure, cbOnSuccess]
      omega
  · intro h hge f
    simp only at h hge
    subst h
    simp [cbCall, cbOnFailure, cbOnSuccess]
    intro h2
    exact absurd h2 (by omega)

/-- C1 witness: a concrete call strictly past the recovery timeout enters
HALF_OPEN and, succeeding, closes the breaker with the counter reset. -/
theorem cb_state_machine_witness :
    cbCall ⟨5, 30, 1⟩ ⟨.open_, 5, 100, 0⟩ 131 true =
      (.ran true, ⟨.closed, 0, 100, 1⟩) := by
  have h := (cb_state_machine ⟨5, 30, 1⟩ ⟨.open_, 5, 100, 0⟩ 131).2.2.2.2.2.1
  exact (h rfl (by decide) (by decide)).1

/-- C2.  While the breaker is OPEN and fewer than `recovery_timeout` seconds
have elapsed since `last_failure_time`, every call — whatever the wrapped
operation would have done — raises `CircuitBreakerError` (the `rejected`
outcome, under which the wrapped operation is never invoked) carrying the
strictly positive remaining cooldown, and leaves the state untouched. -/
theorem cb_open_rejects_without_invoking (cfg : CBConfig) (st : CBState)
    (now : Int) (f : Bool) (hopen : st.state = .open_)
    (hlt : now - st.lastFailureTime < cfg.recoveryTimeout) :
    cbCall cfg st now f =
      (.rejected (st.lastFailureTime + cfg.recoveryTimeout - now), st) ∧
    0 < st.lastFailureTime + cfg.recoveryTimeout - now := by
  obtain ⟨s0, fc, lft, hoc⟩ := st
  simp only at hopen
  subst hopen
  have hl : now - lft < cfg.recoveryTimeout := by simpa using hlt
  refine ⟨?_, by omega⟩
  simp [cbCall]
  intro h2
  exact absurd h2 (by omega)

/-- C2 witness at `last_failure_time = 100`, `recovery_timeout = 30`,
`now = 110`. -/
theorem cb_open_rejects_without_invoking_witness :
    cbCall ⟨5, 30, 1⟩ ⟨.open_, 5, 100, 0⟩ 110 false =
      (.rejected (100 + 30 - 110), ⟨.open_, 5, 100, 0⟩) ∧
    (0 : Int) < 100 + 30 - 110 := by
  exact cb_open_rejects_without_invoking ⟨5, 30, 1⟩ ⟨.open_, 5, 100, 0⟩ 110 false
    rfl (by decide)

/-- C3 (counterexample).  The legacy `app/utils/cache_decorator.py` key
builder iterates parameters in supplied order without sorting: the same two
keyword bindings supplied in the two possible orders give different keys. -/
theorem legacy_key_order_counterexample :
    legacyKey "yfinance:" "f" [("a", .vStr "1"), ("b", .vStr "2")] ≠
      legacyKey "yfinance:" "f" [("b", .vStr "2"), ("a", .vStr "1")] := by
  decide

/-- C3 (amended).  Key derivation is order-insensitive for
`CacheService.generate_cache_key` and for the default key builder of the
redis `redis_cache` decorator, both of which sort parameters by name:
binding the same names to the same values in any order yields the same key.
The legacy `app/utils/cache_decorator.py` builder does not sort and is
order-sensitive (see the counterexample). -/
theorem sorted_key_builders_deterministic :
    (∀ (pre : String) (p1 p2 : List (String × Value)), p1.Perm p2 →
      (p1.map Prod.fst).Nodup →
      generateCacheKey pre p1 = generateCacheKey pre p2) ∧
    (∀ (kp fn : String) (bp : Option String) (fp : List String)
      (args : List Value) (kw1 kw2 : List (String × Value)), kw1.Perm kw2 →
      ((buildArgValues fp args kw1).map Prod.fst).Nodup →
      decoratorKey kp fn bp (buildArgValues fp args kw1) =
        decoratorKey kp fn bp (buildArgValues fp args kw2)) := by
  constructor
  · intro pre p1 p2 hp hnd
    unfold generateCacheKey
    rw [sortParams_eq_of_perm hp hnd]
  · intro kp fn bp fp args kw1 kw2 hp hnd
    unfold decoratorKey buildArgValues
    rw [sortParams_eq_of_perm (List.Perm.append_left _ hp) hnd]

/-- C3 witness: two-parameter calls with the keyword order swapped. -/
theorem sorted_key_builders_deterministic_witness :
    generateCacheKey "tick" [("a", .vStr "1"), ("b", .vStr "2")] =
      generateCacheKey "tick" [("b", .vStr "2"), ("a", .vStr "1")] ∧
    decoratorKey "kapital:" "f" none
        (buildArgValues [] [] [("a", .vStr "1"), ("b", .vStr "2")]) =
      decoratorKey "kapital:" "f" none
        (buildArgValues [] [] [("b", .vStr "2"), ("a", .vStr "1")]) := by
  constructor
  · exact sorted_key_builders_deterministic.1 "tick" _ _
      (List.Perm.swap _ _ _) (by decide)
  · exact sorted_key_builders_deterministic.2 "kapital:" "f" none [] [] _ _
      (List.Perm.swap _ _ _) (by decide)

/-- C4.  At any set-time instant (expressed on a whole second, the
granularity at which "number of seconds until midnight" is exact), a
`RedisManager.set` with `invalidate_at_midnight=True` attaches exactly
`next UTC midnight − now` seconds as the TTL — whatever explicit `ttl`
argument was passed — and `CacheService.set` under the DAILY strategy (no
explicit ttl) delegates to precisely that computation.  The value is
recomputed from `now` at every set; `nextUtcMidnightSec` is characterized
as the least day boundary strictly after the instant. -/
theorem daily_set_ttl_is_seconds_to_midnight (st : Store) (stats : CacheStats)
    (nowUs : Nat) (key : String) (value : Value) (ttl : Option Nat)
    (hsec : nowUs % usPerSec = 0) :
    midnightTtl nowUs = specSecondsUntilNextMidnight (nowUs / usPerSec) ∧
    (nowUs / usPerSec < nextUtcMidnightSec (nowUs / usPerSec) ∧
      nextUtcMidnightSec (nowUs / usPerSec) % 86400 = 0 ∧
      ∀ m, nowUs / usPerSec < m → m % 86400 = 0 →
        nextUtcMidnightSec (nowUs / usPerSec) ≤ m) ∧
    redisSet .ok st nowUs key value ttl true =
      (true, storeInsert st key
        ⟨value, some (specSecondsUntilNextMidnight (nowUs / usPerSec))⟩) ∧
    cacheServiceSet .ok st stats nowUs key value (some .daily) none =
      (true, storeInsert st key
          ⟨value, some (specSecondsUntilNextMidnight (nowUs / usPerSec))⟩,
        { stats with sets := stats.sets + 1 }) := by
  have hspec := midnightTtl_eq_spec hsec
  have hpos := midnightTtl_pos hsec
  have hset : ∀ t, redisSet .ok st nowUs key value t true =
      (true, storeInsert st key
        ⟨value, some (specSecondsUntilNextMidnight (nowUs / usPerSec))⟩) := by
    intro t
    unfold redisSet
    rw [if_pos rfl]
    simp only [← hspec]
    rw [if_pos hpos]
  refine ⟨hspec, ⟨?_, ?_, ?_⟩, hset ttl, ?_⟩
  · unfold nextUtcMidnightSec
    omega
  · unfold nextUtcMidnightSec
    simp [Nat.mul_mod_left]
  · intro m hm hmod
    unfold nextUtcMidnightSec
    omega
  · simp [cacheServiceSet, hset]

/-- C4 witness at the epoch instant: a DAILY set at `now = 0` (midnight
itself) attaches a full day, overriding the explicit 5-second ttl. -/
theorem daily_set_ttl_is_seconds_to_midnight_witness :
    redisSet .ok [] 0 "k" (.vStr "v") (some 5) true =
      (true, [("k", ⟨.vStr "v", some 86400⟩)]) := by
  have h := (daily_set_ttl_is_seconds_to_midnight [] ⟨0, 0, 0, 0⟩ 0 "k"
    (.vStr "v") (some 5) rfl).2.2.1
  exact h.trans (by rfl)

/-- C5.  When the backing store is unreachable (`is_connected()` false) or
the client raises a connection/timeout error during the operation, nothing
propagates to the caller: `get` returns `None`, and `set`, `delete` and
`clear_all` return `False`, all leaving the keyspace unchanged. -/
theorem store_degrades_on_connectivity_failure (conn : ConnStatus)
    (hconn : conn ≠ .ok) (st : Store) (nowUs : Nat) (key : String)
    (value : Value) (ttl : Option Nat) (inv : Bool) :
    redisGet conn st key = none ∧
    redisSet conn st nowUs key value ttl inv = (false, st) ∧
    redisDelete conn st key = (false, st) ∧
    redisClearAll conn st = (false, st) := by
  cases conn with
  | ok => exact absurd rfl hconn
  | down => exact ⟨rfl, rfl, rfl, rfl⟩
  | errorDuring => exact ⟨rfl, rfl, rfl, rfl⟩

/-- C5 witness with the backend down. -/
theorem store_degrades_on_connectivity_failure_witness :
    redisGet .down [] "k" = none ∧
    redisSet .down [] 0 "k" (.vStr "v") none false = (false, []) ∧
    redisDelete .down [] "k" = (false, []) ∧
    redisClearAll .down [] = (false, []) :=
  store_degrades_on_connectivity_failure .down (by decide) [] 0 "k"
    (.vStr "v") none false

/-- C6.  `CacheService.set` under the NO_CACHE strategy (no explicit ttl)
returns `True` without performing any store operation: the keyspace and the
statistics are untouched, for any connectivity state. -/
theorem no_cache_strategy_is_noop (conn : ConnStatus) (st : Store)
    (stats : CacheStats) (nowUs : Nat) (key : String) (value : Value) :
    cacheServiceSet conn st stats nowUs key value (some .noCache) none =
      (true, st, stats) := rfl

/-- C9.  `RedisManager.set` with an explicit ttl of 0 behaves exactly like a
set with no ttl: the entry is stored with no expiration (Python `if ttl:`
is falsy for both `None` and `0`).  The microsecond-level midnight
computation can truncate to 0 (e.g. 1 µs before midnight), in which case a
midnight-invalidated set also stores without expiration, overriding any
explicit ttl.  And `CacheService.set` with `ttl=0` bypasses strategy
resolution entirely, storing an unexpiring entry even under NO_CACHE. -/
theorem ttl_zero_stores_without_expiry (st : Store) (stats : CacheStats)
    (nowUs : Nat) (key : String) (value : Value) :
    redisSet .ok st nowUs key value (some 0) false =
      (true, storeInsert st key ⟨value, none⟩) ∧
    redisSet .ok st nowUs key value (some 0) false =
      redisSet .ok st nowUs key value none false ∧
    midnightTtl (usPerDay - 1) = 0 ∧
    (∀ ttl, redisSet .ok st (usPerDay - 1) key value ttl true =
      (true, storeInsert st key ⟨value, none⟩)) ∧
    cacheServiceSet .ok st stats nowUs key value (some .noCache) (some 0) =
      (true, storeInsert st key ⟨value, none⟩,
        { stats with sets := stats.sets + 1 }) := by
  have hmid : midnightTtl (usPerDay - 1) = 0 := by
    unfold midnightTtl usPerDay usPerSec
    norm_num
  refine ⟨rfl, rfl, hmid, ?_, rfl⟩
  intro ttl
  unfold redisSet
  rw [if_pos rfl]
  rw [hmid]
  simp

/-- C7 (counterexample).  `fresh=1` (the integer 1) is truthy in Python,
yet the wrapper's bypass test only recognises `bool` and a fixed set of
strings: the call is *not* bypassed — the cache is read (one
`redis_manager.get`) and the cached value is served, so the producer is
never invoked. -/
theorem bypass_truthy_counterexample :
    pyTruthy (.vInt 1) = true ∧
    (wrapperCall bypassCfg ⟨5, 30, 1⟩ .ok cbInit bypassStore 0 []
      [("fresh", .vInt 1)] (.vStr "fresh-result")).producerCalls = 0 ∧
    (wrapperCall bypassCfg ⟨5, 30, 1⟩ .ok cbInit bypassStore 0 []
      [("fresh", .vInt 1)] (.vStr "fresh-result")).cacheGets = 1 := by
  decide

/-- C7 (amended).  When the designated bypass parameter is supplied as the
boolean `True` or as a string whose lowercase form is one of
`true/t/yes/y/1` (the forms the wrapper recognises — other truthy values
such as a nonzero integer or an unrecognised string do not bypass), the
producer is invoked directly exactly once and the cache is neither read nor
written: no get, no set, and the keyspace is returned unchanged. -/
theorem bypass_recognized_skips_cache (cfg : WrapperConfig) (cbCfg : CBConfig)
    (conn : ConnStatus) (cb : CBState) (st : Store) (nowUs : Nat)
    (args : List Value) (kwargs : List (String × Value)) (pr : Value)
    (p : String) (v : Value) (hp : cfg.bypassCacheParam = some p)
    (hk : lookupKw kwargs p = some v) (hv : recognizedBypass v = true) :
    wrapperCall cfg cbCfg conn cb st nowUs args kwargs pr =
      ⟨.value pr, st, cb, 1, 0, 0⟩ := by
  unfold wrapperCall
  rw [hp]
  simp only [hk, hv]
  simp

/-- C7 witness: `fresh=True` bypasses; the producer runs once and the
store, breaker state and counters show the cache untouched. -/
theorem bypass_recognized_skips_cache_witness :
    wrapperCall bypassCfg ⟨5, 30, 1⟩ .ok cbInit bypassStore 0 []
      [("fresh", .vBool true)] (.vStr "fresh-result") =
      ⟨.value (.vStr "fresh-result"), bypassStore, cbInit, 1, 0, 0⟩ :=
  bypass_recognized_skips_cache bypassCfg ⟨5, 30, 1⟩ .ok cbInit bypassStore 0
    [] [("fresh", .vBool true)] (.vStr "fresh-result") "fresh" (.vBool true)
    rfl rfl rfl

lemma redisSet_ok_shape (st : Store) (nowUs : Nat) (key : String) (v : Value)
    (ttl : Option Nat) (inv : Bool) :
    ∃ e, redisSet .ok st nowUs key v ttl inv = (true, storeInsert st key ⟨v, e⟩) := by
  unfold redisSet
  rcases hti : (if inv then some (midnightTtl nowUs) else ttl) with _ | n
  · exact ⟨none, by simp [hti]⟩
  · by_cases hn : n ≠ 0
    · exact ⟨some n, by simp [hti, hn]⟩
    · exact ⟨none, by simp [hti, hn]⟩

lemma wrapperCall_nobypass_miss_calls (cfg : WrapperConfig) (cbCfg : CBConfig)
    (st : Store) (nowUs : Nat) (args : List Value)
    (kwargs : List (String × Value)) (pr : Value)
    (hbp : cfg.bypassCacheParam = none)
    (hget : redisGet .ok st (decoratorKey cfg.keyPre cfg.funcName none
      (buildArgValues cfg.funcParams args kwargs)) = none) :
    (wrapperCall cfg cbCfg .ok cbInit st nowUs args kwargs pr).producerCalls = 1 := by
  unfold wrapperCall
  rw [hbp]
  simp only [cbCall_init, hbp, hget]
  exact wrapperMiss_producerCalls cfg cbCfg .ok cbInit st nowUs _ pr 1

lemma wrapperCall_nobypass_miss_null_stores (cfg : WrapperConfig)
    (cbCfg : CBConfig) (st : Store) (nowUs : Nat) (args : List Value)
    (kwargs : List (String × Value)) (hbp : cfg.bypassCacheParam = none)
    (hnull : cfg.cacheNullResponses = true)
    (hget : redisGet .ok st (decoratorKey cfg.keyPre cfg.funcName none
      (buildArgValues cfg.funcParams args kwargs)) = none) :
    ∃ e, (wrapperCall cfg cbCfg .ok cbInit st nowUs args kwargs .vNone).store =
      storeInsert st (decoratorKey cfg.keyPre cfg.funcName none
        (buildArgValues cfg.funcParams args kwargs)) ⟨.vNone, e⟩ := by
  obtain ⟨e, hset⟩ := redisSet_ok_shape st nowUs
    (decoratorKey cfg.keyPre cfg.funcName none
      (buildArgValues cfg.funcParams args kwargs)) .vNone
    (resolveTtlSeconds cfg.ttl) cfg.invalidateAtMidnight
  refine ⟨e, ?_⟩
  unfold wrapperCall
  rw [hbp]
  simp only [cbCall_init, hbp, hget]
  unfold wrapperMiss
  simp only [cbCall_init, hset]
  have hcond : ¬ (Value.vNone.isNone = true ∧ ¬ cfg.cacheNullResponses = true) := by
    simp [hnull]
  rw [if_neg hcond]
  simp

/-- C10.  A stored JSON `null` is indistinguishable from absence on the read
path: `RedisManager.get` returns `None` for it, `CacheService.get` reports a
miss (counting it) and returns `(None, False)`, and the cache-aside wrapper
treats the lookup as a miss and invokes the producer; in particular, after a
null result is stored with `cache_null_responses=True`, the next call still
invokes the producer — a null is never served from cache. -/
theorem stored_null_reads_as_miss :
    (∀ (st : Store) (key : String) (e : Option Nat),
      storeLookup st key = some ⟨.vNone, e⟩ → redisGet .ok st key = none) ∧
    (∀ (st : Store) (stats : CacheStats) (key : String) (e : Option Nat),
      storeLookup st key = some ⟨.vNone, e⟩ →
      cacheServiceGet .ok st stats key =
        (none, false, { stats with misses := stats.misses + 1 })) ∧
    (∀ (cfg : WrapperConfig) (cbCfg : CBConfig) (st : Store) (nowUs : Nat)
      (args : List Value) (kwargs : List (String × Value)) (pr : Value)
      (e : Option Nat), cfg.bypassCacheParam = none →
      storeLookup st (decoratorKey cfg.keyPre cfg.funcName none
        (buildArgValues cfg.funcParams args kwargs)) = some ⟨.vNone, e⟩ →
      (wrapperCall cfg cbCfg .ok cbInit st nowUs args kwargs pr).producerCalls = 1) ∧
    (∀ (cfg : WrapperConfig) (cbCfg : CBConfig) (st : Store) (nowUs : Nat)
      (args : List Value) (kwargs : List (String × Value)) (pr2 : Value),
      cfg.bypassCacheParam = none → cfg.cacheNullResponses = true →
      redisGet .ok st (decoratorKey cfg.keyPre cfg.funcName none
        (buildArgValues cfg.funcParams args kwargs)) = none →
      (wrapperCall cfg cbCfg .ok cbInit st nowUs args kwargs .vNone).producerCalls = 1 ∧
      (∃ e, storeLookup
          (wrapperCall cfg cbCfg .ok cbInit st nowUs args kwargs .vNone).store
          (decoratorKey cfg.keyPre cfg.funcName none
            (buildArgValues cfg.funcParams args kwargs)) = some ⟨.vNone, e⟩) ∧
      (wrapperCall cfg cbCfg .ok cbInit
          (wrapperCall cfg cbCfg .ok cbInit st nowUs args kwargs .vNone).store
          nowUs args kwargs pr2).producerCalls = 1) := by
  refine ⟨?_, ?_, ?_, ?_⟩
  · intro st key e h
    exact redisGet_of_null h
  · intro st stats key e h
    unfold cacheServiceGet
    rw [redisGet_of_null h]
  · intro cfg cbCfg st nowUs args kwargs pr e hbp h
    exact wrapperCall_nobypass_miss_calls cfg cbCfg st nowUs args kwargs pr hbp
      (redisGet_of_null h)
  · intro cfg cbCfg st nowUs args kwargs pr2 hbp hnull hget
    obtain ⟨e, hstore⟩ := wrapperCall_nobypass_miss_null_stores cfg cbCfg st
      nowUs args kwargs hbp hnull hget
    have hlook : storeLookup
        (wrapperCall cfg cbCfg .ok cbInit st nowUs args kwargs .vNone).store
        (decoratorKey cfg.keyPre cfg.funcName none
          (buildArgValues cfg.funcParams args kwargs)) = some ⟨.vNone, e⟩ := by
      rw [hstore]
      exact storeLookup_insert _ _ _
    refine ⟨wrapperCall_nobypass_miss_calls cfg cbCfg st nowUs args kwargs
      .vNone hbp hget, ⟨e, hlook⟩, ?_⟩
    exact wrapperCall_nobypass_miss_calls cfg cbCfg _ nowUs args kwargs pr2 hbp
      (redisGet_of_null hlook)

/-- C10 witness: a keyspace holding `null` under the derived key; both the
direct reads and the wrapper behave as a miss, and with
`cache_null_responses=True` the producer runs again on the second call. -/
theorem stored_null_reads_as_miss_witness :
    redisGet .ok [("kapital::g", ⟨.vNone, none⟩)] "kapital::g" = none ∧
    cacheServiceGet .ok [("kapital::g", ⟨.vNone, none⟩)] ⟨0, 0, 0, 0⟩ "kapital::g" =
      (none, false, ⟨0, 1, 0, 0⟩) ∧
    (wrapperCall ⟨.none_, false, "kapital:", none, true, true, "g", []⟩ ⟨5, 30, 1⟩
      .ok cbInit [("kapital::g", ⟨.vNone, none⟩)] 0 [] [] (.vStr "p")).producerCalls = 1 := by
  have h := stored_null_reads_as_miss
  refine ⟨h.1 _ _ none rfl, h.2.1 _ _ _ none rfl, ?_⟩
  exact h.2.2.1 ⟨.none_, false, "kapital:", none, true, true, "g", []⟩ ⟨5, 30, 1⟩
    _ 0 [] [] (.vStr "p") none rfl rfl

lemma sanitizeYf_nestList : ∀ n, sanitizeYf (nestList n) = nestList n := by
  intro n
  induction n with
  | zero => rfl
  | succ n ih =>
    show sanitizeYf (.vList [nestList n]) = .vList [nestList n]
    simp [sanitizeYf, sanitizeYfList, ih]

/-- C8 (counterexample).  On a 12-deep nested list the yfinance sanitizer
recurses through all 13 frames (returning the input unchanged), exceeding
the other implementation's depth budget, while the yahooquery sanitizer
stops at its `max_depth = 10` bound (stringifying the remainder), so the two
cited implementations of "the" sanitization disagree and the yfinance one
has no depth bound. -/
theorem sanitize_unbounded_counterexample :
    yfDepth (nestList 12) = 13 ∧
    yqDepth (nestList 12) 0 10 = 12 ∧
    sanitizeYf (nestList 12) = nestList 12 ∧
    sanitizeYq (nestList 12) 0 10 ≠ nestList 12 := by
  refine ⟨yfDepth_nestList 12, ?_, sanitizeYf_nestList 12, ?_⟩
  · simp [yqDepth, yqDepthList, nestList]
  · simp [sanitizeYq, sanitizeYqList, nestList, pyStr, pyRepr, pyReprList]

/-- C8 (amended).  The yahooquery `_sanitize_for_json` is depth-bounded —
any call deeper than `max_depth` returns `str(obj)` immediately and its
recursion depth never exceeds `max_depth − depth + 2` — hence terminates on
arbitrarily (even pathologically) nested inputs; the yfinance
`_sanitize_for_json` has no depth bound (its recursion depth on an
`n`-nested list is `n + 1`, unbounded over inputs, so termination relies on
the input being finite and acyclic).  Both map NaN to null, Infinity to its
string form, date/time values to ISO-8601 strings, and frame-like tabular
structures to a list of per-row record dicts. -/
theorem sanitizers_depth_bound_and_mappings :
    (∀ (v : Value) (m k : Nat), sanitizeYq v (m + 1 + k) m = .vStr (pyStr v)) ∧
    (∀ (v : Value) (d m : Nat), yqDepth v d m ≤ m + 1 - d + 1) ∧
    (∀ B, yfDepth (nestList (B + 1)) = B + 2 ∧ B < yfDepth (nestList (B + 1))) ∧
    (sanitizeYf (.vFloat .nan) = .vNone ∧
      ∀ m, sanitizeYq (.vFloat .nan) 0 m = .vNone) ∧
    (∀ neg, sanitizeYf (.vFloat (.inf neg)) = .vStr (pyStr (.vFloat (.inf neg))) ∧
      ∀ m, sanitizeYq (.vFloat (.inf neg)) 0 m = .vStr (pyStr (.vFloat (.inf neg)))) ∧
    (∀ y mo d h mi s, sanitizeYf (.vDateTime y mo d h mi s) =
        .vStr (isoFormat y mo d h mi s) ∧
      ∀ m, sanitizeYq (.vDateTime y mo d h mi s) 0 m =
        .vStr (isoFormat y mo d h mi s)) ∧
    (∀ rows, sanitizeYf (.vFrame rows) =
      .vList (rows.map fun r => .vDict (sanitizeYfAttrs r))) ∧
    (∀ rows m, sanitizeYq (.vFrame rows) 0 (m + 1) =
      .vList (sanitizeYqList (rows.map rowToDict) 2 (m + 1))) := by
  refine ⟨?_, ?_, ?_, ?_, ?_, ?_, ?_, ?_⟩
  · intro v m k
    exact sanitizeYq_cutoff v (m + 1 + k) m (by omega)
  · intro v d m
    exact (yqDepth_bound_aux (m + 1 - d) d m le_rfl).1 v
  · intro B
    rw [yfDepth_nestList (B + 1)]
    omega
  · refine ⟨rfl, ?_⟩
    intro m
    unfold sanitizeYq
    rw [dif_neg (by omega)]
  · intro neg
    refine ⟨rfl, ?_⟩
    intro m
    unfold sanitizeYq
    rw [dif_neg (by omega)]
  · intro y mo d h mi s
    refine ⟨rfl, ?_⟩
    intro m
    unfold sanitizeYq
    rw [dif_neg (by omega)]
  · intro rows
    show Value.vList (sanitizeYfRows rows) = _
    rw [sanitizeYfRows_eq]
  · intro rows m
    unfold sanitizeYq
    rw [dif_neg (by omega)]
    show sanitizeYq (.vList (rows.map rowToDict)) 1 (m + 1) = _
    unfold sanitizeYq
    rw [dif_neg (by omega)]
